import Mathlib

/-!
Verification of the dual-model prediction arbitration and real-time
stabilization engine of the EGourd mobile application.

The development shallowly embeds the algorithmic core of the repository:

* `geminiService.js` : the two versions of `comparePredictions` (the legacy
  one and the current one with the disagreement decision table), and the
  response-parsing pipeline of `analyzeFlower` (strict JSON match followed by
  targeted field extraction).
* `modelServiceTM.js` : the moving-average smoothing window and the
  `predictWithAllProbabilities` reject-synthesis ("Not Flower") logic.
* `ResultsScreenTM.js` : the per-tick stability test, the best-frame update
  and the capture-time frame-selection policy of `handleCapture`.

JavaScript numbers are modelled as exact rationals (`ℚ`); the single place
where `NaN` can arise in the embedded code (`parseFloat` on a degenerate
capture such as ".") is modelled by the explicit type `JsNum`.  JavaScript
`null` is modelled by `Option`.  `Array.prototype.sort`, which is stable in
ECMAScript 2019 and later, is modelled by a stable insertion sort.
-/

namespace EGourd

/-- A prediction as consumed by `comparePredictions`: the `variety` and
`gender` display fields (both may be `null` in the app, hence `Option`) and
the raw confidence `rawScore` in `[0,1]`. -/
structure CmpPred where
  variety : Option String
  gender : Option String
  rawScore : ℚ
deriving DecidableEq, Repr

/-- The comparison result returned by both versions of `comparePredictions`
in `geminiService.js`. -/
structure ComparisonResult where
  agree : Bool
  varietyMatch : Bool
  genderMatch : Bool
  confidence : ℚ
  recommendation : String
  confidenceGap : ℚ
deriving DecidableEq, Repr

/-- Embedding of the current `comparePredictions` (second copy of
`geminiService.js`, the one with the disagreement decision table).  The
JavaScript assigns `recommendation = 'manual'` and then overwrites it inside
an `if / else if` chain; the chain is reproduced here as nested
conditionals, including the nested inner conditionals of the species check
and of the gender ("female protection") check. -/
def comparePredictions (tf gm : CmpPred) : ComparisonResult :=
  { agree := decide (tf.variety = gm.variety ∧ tf.gender = gm.gender)
    varietyMatch := decide (tf.variety = gm.variety)
    genderMatch := decide (tf.gender = gm.gender)
    confidence :=
      if tf.variety = gm.variety ∧ tf.gender = gm.gender then
        max tf.rawScore gm.rawScore
      else
        (tf.rawScore + gm.rawScore) / 2
    recommendation :=
      if tf.variety = gm.variety ∧ tf.gender = gm.gender then
        (if tf.rawScore ≤ gm.rawScore then ("gemini") else ("tflite"))
      else if tf.variety = some ("Upo (Smooth)") ∧ gm.variety = some ("Ampalaya Bilog") then
        (if 0.8 < tf.rawScore then ("tflite") else ("manual"))
      else if tf.gender = some ("female") ∧ gm.gender = some ("male") then
        (if gm.rawScore < 0.98 ∧ 0.65 < tf.rawScore then ("tflite")
         else if 0.98 ≤ gm.rawScore then ("gemini")
         else ("manual"))
      else if 0.98 ≤ tf.rawScore then ("tflite")
      else if 0.95 ≤ gm.rawScore ∧ tf.rawScore < 0.7 then ("gemini")
      else if 0.9 ≤ tf.rawScore ∧ gm.rawScore < 0.9 then ("tflite")
      else if 0.9 ≤ gm.rawScore ∧ tf.rawScore < 0.8 then ("gemini")
      else ("manual")
    confidenceGap := |tf.rawScore - gm.rawScore| }

/-- Embedding of the legacy `comparePredictions` (first copy of
`geminiService.js`): on agreement the higher-confidence side wins with ties
to gemini; on disagreement only the two "very confident vs uncertain" rules
apply, otherwise `manual`. -/
def comparePredictionsLegacy (tf gm : CmpPred) : ComparisonResult :=
  { agree := decide (tf.variety = gm.variety ∧ tf.gender = gm.gender)
    varietyMatch := decide (tf.variety = gm.variety)
    genderMatch := decide (tf.gender = gm.gender)
    confidence :=
      if tf.variety = gm.variety ∧ tf.gender = gm.gender then
        max tf.rawScore gm.rawScore
      else
        (tf.rawScore + gm.rawScore) / 2
    recommendation :=
      if tf.variety = gm.variety ∧ tf.gender = gm.gender then
        (if tf.rawScore ≤ gm.rawScore then ("gemini") else ("tflite"))
      else if 0.8 < gm.rawScore ∧ tf.rawScore < 0.6 then ("gemini")
      else if 0.8 < tf.rawScore ∧ gm.rawScore < 0.6 then ("tflite")
      else ("manual")
    confidenceGap := |tf.rawScore - gm.rawScore| }

/-- JavaScript `Math.round`: round half away from zero upwards, i.e.
`⌊q + 1/2⌋`. -/
def jsRound (q : ℚ) : ℤ :=
  ⌊q + 1/2⌋

/-- The percentage field computed by `modelServiceTM.js`:
`Math.round(probability * 100 * 10) / 10`. -/
def jsPercentage (p : ℚ) : ℚ :=
  (jsRound (p * 100 * 10) : ℚ) / 10

/-- Stable insertion modelling JavaScript `Array.prototype.sort` (stable
since ECMAScript 2019) with the comparator `(a, b) => key(b) - key(a)`:
descending by key, and a newly inserted element lands after every earlier
element with an equal key. -/
def insertByDesc {α : Type} (key : α → ℚ) (x : α) : List α → List α
  | [] => [x]
  | y :: ys => if key y < key x then x :: y :: ys else y :: insertByDesc key x ys

/-- The stable descending sort: elements are inserted left-to-right, which
reproduces the stable sort exactly. -/
def jsSortDesc {α : Type} (key : α → ℚ) (l : List α) : List α :=
  l.foldl (fun acc x => insertByDesc key x acc) []

/-- The fixed Teachable Machine label vocabulary (`TM_LABELS` in
`modelServiceTM.js`). -/
def TM_LABELS : List String :=
  [("Ampalaya Bilog Male"), ("Ampalaya Bilog Female"), ("Patola Female"),
   ("Patola Male"), ("Upo Smooth Female"), ("Upo Smooth Male")]

/-- One entry of the `predictions` array built by
`predictWithAllProbabilities`.  Entries built from the vocabulary leave the
`isSynthetic` flag unset (falsy), modelled as `false`; only the synthesized
"Not Flower" entry carries `isSynthetic = true`. -/
structure TMPred where
  label : String
  probability : ℚ
  percentage : ℚ
  index : ℤ
  isSynthetic : Bool
deriving DecidableEq, Repr

def defaultTMPred : TMPred :=
  { label := "", probability := 0, percentage := 0, index := 0, isSynthetic := false }

/-- `this.labels.map((label, index) => {...})` from
`predictWithAllProbabilities`, with the running index made explicit. -/
def buildPredictionsAux (avgProbs : List ℚ) : ℕ → List String → List TMPred
  | _, [] => []
  | index, label :: rest =>
    { label := label
      probability := avgProbs.getD index 0
      percentage := jsPercentage (avgProbs.getD index 0)
      index := (index : ℤ)
      isSynthetic := false } :: buildPredictionsAux avgProbs (index + 1) rest

def buildPredictions (avgProbs : List ℚ) : List TMPred :=
  buildPredictionsAux avgProbs 0 TM_LABELS

/-- The synthesized reject entry, with probability `1 - topProbability`. -/
def notFlowerEntry (topProb : ℚ) : TMPred :=
  { label := ("Not Flower")
    probability := 1 - topProb
    percentage := jsPercentage (1 - topProb)
    index := -1
    isSynthetic := true }

/-- The part of the return value of `predictWithAllProbabilities` that the
claims are about. -/
structure TMOutput where
  predictions : List TMPred
  topPrediction : TMPred
  isUncertain : Bool
deriving DecidableEq, Repr

/-- The sorted probability array before the "Not Flower" logic. -/
def tmSorted (avgProbs : List ℚ) : List TMPred :=
  jsSortDesc TMPred.probability (buildPredictions avgProbs)

/-- `predictions[0]` before the "Not Flower" logic. -/
def tmTop0 (avgProbs : List ℚ) : TMPred :=
  (tmSorted avgProbs).headD defaultTMPred

/-- The sorting and "Not Flower" logic of `predictWithAllProbabilities`, as
a function of the smoothed (averaged) distribution: when the top probability
is below the 0.70 threshold a synthetic reject entry with probability
`1 - top` is pushed and the array re-sorted, and the new `predictions[0]`
becomes the reported top prediction. -/
def tmPredict (avgProbs : List ℚ) : TMOutput :=
  let top := tmTop0 avgProbs
  if top.probability < 0.7 then
    let predictions2 := jsSortDesc TMPred.probability
      (tmSorted avgProbs ++ [notFlowerEntry top.probability])
    { predictions := predictions2
      topPrediction := predictions2.headD defaultTMPred
      isUncertain := true }
  else
    { predictions := tmSorted avgProbs
      topPrediction := top
      isUncertain := false }

/-- One step of the smoothing history of `predictWithAllProbabilities`:
`push` the new raw distribution and `shift` away the oldest entry when the
window exceeds `historySize = 5`. -/
def pushHistory (h : List (List ℚ)) (x : List ℚ) : List (List ℚ) :=
  let h2 := h ++ [x]
  if 5 < h2.length then h2.tail else h2

/-- The window contents after feeding a whole sequence of raw
distributions, starting from the empty history. -/
def feedHistory (xs : List (List ℚ)) : List (List ℚ) :=
  xs.foldl pushHistory []

/-- The per-class arithmetic mean over the current window
(`averagedProbs[i] = sum of history[...][i] / history.length`); a missing
index reads as 0, mirroring `historyItem[i] || 0`, and `numClasses = 6`. -/
def averagedProbs (h : List (List ℚ)) : List ℚ :=
  (List.range 6).map (fun i => ((h.map (fun item => item.getD i 0)).sum) / (h.length : ℚ))

/-- The reject sentinel label of the camera screen. -/
def rejectLabel : String := "Not Flower"

/-- One entry of `recentPredictions.current` in `ResultsScreenTM.js`: the
per-tick top label, its confidence (a percentage), and the captured
frame. -/
structure ScanEntry where
  label : String
  confidence : ℚ
  uri : String
  width : ℤ
  height : ℤ
deriving DecidableEq, Repr

/-- The per-tick history update of the scanning loop: `push` the new entry
and `shift` away the oldest when the buffer exceeds 7. -/
def pushRecent (recent : List ScanEntry) (current : ScanEntry) : List ScanEntry :=
  let r := recent ++ [current]
  if 7 < r.length then r.tail else r

/-- `recent.slice(-5)`: the last five entries (the whole list when it has
fewer than five). -/
def lastFive (recent : List ScanEntry) : List ScanEntry :=
  recent.drop (recent.length - 5)

/-- `stableNow = lastFive.length >= 5 && lastFive.every(p => p.label ===
currentLabel)`, computed on the history after the push. -/
def stableNow (recent : List ScanEntry) (currentLabel : String) : Bool :=
  decide (5 ≤ (lastFive recent).length)
    && (lastFive recent).all (fun p => p.label == currentLabel)

/-- The stability flag published on each tick:
`setIsStable(stableNow && currentLabel !== 'Not Flower')`. -/
def isStableTick (prior : List ScanEntry) (current : ScanEntry) : Bool :=
  stableNow (pushRecent prior current) current.label
    && (current.label != rejectLabel)

/-- `bestFrame.current` of the camera screen (`null` uri and label and zero
confidence at reset). -/
structure BestFrameState where
  uri : Option String
  width : ℤ
  height : ℤ
  label : Option String
  confidence : ℚ
  count : ℕ
deriving DecidableEq, Repr

/-- The reset value assigned when the screen regains focus. -/
def BestFrameState.empty : BestFrameState :=
  { uri := none, width := 0, height := 0, label := none, confidence := 0, count := 0 }

/-- The record stored when the best frame is replaced on a stable tick. -/
def mkBestFrame (current : ScanEntry) (recent : List ScanEntry) : BestFrameState :=
  { uri := some current.uri
    width := current.width
    height := current.height
    label := some current.label
    confidence := current.confidence
    count := (lastFive recent).length }

/-- The best-frame update of one scanning tick: only when the tick is
stable on a non-reject label is the stored frame considered for
replacement, and both the same-label branch and the different-label branch
replace exactly when the incoming confidence strictly exceeds the stored
one. -/
def updateBestFrame (prior : List ScanEntry) (current : ScanEntry)
    (bf : BestFrameState) : BestFrameState :=
  let recent := pushRecent prior current
  if stableNow recent current.label && (current.label != rejectLabel) then
    if bf.label = some current.label then
      (if bf.confidence < current.confidence then mkBestFrame current recent else bf)
    else
      (if bf.confidence < current.confidence then mkBestFrame current recent else bf)
  else bf

/-- `lastFrameUri.current` of the camera screen. -/
structure LastFrameState where
  uri : Option String
  width : ℤ
  height : ℤ
deriving DecidableEq, Repr

/-- The outcome of the frame selection in `handleCapture`: which cached
frame is used, or `fresh` when no cached frame is available and a new photo
must be taken synchronously. -/
inductive CaptureChoice where
  | bestStable (uri : String) (width height : ℤ) : CaptureChoice
  | bestRecent (uri : String) (width height : ℤ) : CaptureChoice
  | lastFrame (uri : String) (width height : ℤ) : CaptureChoice
  | fresh : CaptureChoice
deriving DecidableEq, Repr

/-- `recentPredictions.current.filter(p => p.label !== 'Not Flower')`. -/
def recentFiltered (recent : List ScanEntry) : List ScanEntry :=
  recent.filter (fun p => p.label != rejectLabel)

/-- The frame-selection policy of `handleCapture`: best stable frame when
present with confidence above 50; else the top of the filtered history
sorted by descending confidence, when above 60; else the last frame when
present; else a fresh synchronous capture. -/
def handleCaptureSelect (bf : BestFrameState) (recent : List ScanEntry)
    (last : LastFrameState) : CaptureChoice :=
  if bf.uri.isSome ∧ 50 < bf.confidence then
    .bestStable (bf.uri.getD "") bf.width bf.height
  else
    match (jsSortDesc ScanEntry.confidence (recentFiltered recent)).head? with
    | some b =>
      if 60 < b.confidence then .bestRecent b.uri b.width b.height
      else
        match last.uri with
        | some u => .lastFrame u last.width last.height
        | none => .fresh
    | none =>
      match last.uri with
      | some u => .lastFrame u last.width last.height
      | none => .fresh

/-- The double-quote character. -/
def dquote : Char := Char.ofNat 34

/-- The opening-brace character of the JSON object pattern. -/
def lbraceChar : Char := Char.ofNat 123

/-- The closing-brace character of the JSON object pattern. -/
def rbraceChar : Char := Char.ofNat 125

/-- The common whitespace characters of the regex class `\s` (the exotic
unicode spaces are irrelevant to the claims and to the counterexamples). -/
def isJsWs (c : Char) : Bool :=
  c = ' ' || c = '\t' || c = '\n' || c = '\r'

/-- Greedily consume the whitespace matched by `\s*`. -/
def skipWs : List Char → List Char
  | [] => []
  | c :: rest => if isJsWs c then skipWs rest else c :: rest

/-- Match a literal character sequence at the head, returning the rest. -/
def matchLit : List Char → List Char → Option (List Char)
  | [], s => some s
  | _ :: _, [] => none
  | p :: ps, c :: cs => if p = c then matchLit ps cs else none

/-- The characters of the quoted JSON key pattern. -/
def fieldKeyChars (key : String) : List Char :=
  dquote :: (key.data ++ [dquote])

/-- The character class `[^"]`. -/
def notQuoteB (c : Char) : Bool := c != dquote

/-- Attempt the pattern `"key"\s*:\s*"([^"]+)"` at the head of the input:
the quoted key, optional whitespace, a colon, optional whitespace, then a
non-empty capture of non-quote characters terminated by a closing quote. -/
def tryStringField (key : String) (s : List Char) : Option String :=
  match matchLit (fieldKeyChars key) s with
  | none => none
  | some s1 =>
    match matchLit [':'] (skipWs s1) with
    | none => none
    | some s2 =>
      match matchLit [dquote] (skipWs s2) with
      | none => none
      | some s3 =>
        match s3.dropWhile notQuoteB with
        | [] => none
        | _ :: _ =>
          if s3.takeWhile notQuoteB = [] then none
          else some (String.mk (s3.takeWhile notQuoteB))

/-- The character class `[\d.]`. -/
def isDigitDot (c : Char) : Bool :=
  c.isDigit || c = '.'

/-- Attempt the pattern `"key"\s*:\s*([\d.]+)` at the head of the input. -/
def tryNumField (key : String) (s : List Char) : Option String :=
  match matchLit (fieldKeyChars key) s with
  | none => none
  | some s1 =>
    match matchLit [':'] (skipWs s1) with
    | none => none
    | some s2 =>
      if (skipWs s2).takeWhile isDigitDot = [] then none
      else some (String.mk ((skipWs s2).takeWhile isDigitDot))

/-- Attempt the pattern `"reasoning"\s*:\s*"([^"]+)` - no closing quote, to
tolerate a truncated response - at the head of the input. -/
def tryReasoningField (s : List Char) : Option String :=
  match matchLit (fieldKeyChars ("reasoning")) s with
  | none => none
  | some s1 =>
    match matchLit [':'] (skipWs s1) with
    | none => none
    | some s2 =>
      match matchLit [dquote] (skipWs s2) with
      | none => none
      | some s3 =>
        if s3.takeWhile notQuoteB = [] then none
        else some (String.mk (s3.takeWhile notQuoteB))

/-- Left-to-right regex scanning: attempt the pattern at every start
position and return the leftmost match. -/
def scanList {α : Type} (f : List Char → Option α) : List Char → Option α
  | [] => f []
  | c :: rest =>
    match f (c :: rest) with
    | some v => some v
    | none => scanList f rest

/-- `text.match(/"variety"\s*:\s*"([^"]+)"/)` and friends. -/
def jsMatchStringField (key : String) (text : String) : Option String :=
  scanList (tryStringField key) text.data

/-- `text.match(/"confidence"\s*:\s*([\d.]+)/)`. -/
def jsMatchNumField (key : String) (text : String) : Option String :=
  scanList (tryNumField key) text.data

/-- `text.match(/"reasoning"\s*:\s*"([^"]+)/)`. -/
def jsMatchReasoning (text : String) : Option String :=
  scanList tryReasoningField text.data

/-- `text.match(/\{[\s\S]*\}/)`: the greedy match runs from the first
opening brace to the last closing brace after it, when both exist. -/
def jsBraceMatch (text : String) : Option String :=
  match text.data.dropWhile (fun c => c != lbraceChar) with
  | [] => none
  | c :: rest =>
    match rest.reverse.dropWhile (fun c => c != rbraceChar) with
    | [] => none
    | r :: rtail => some (String.mk (c :: (r :: rtail).reverse))

/-- A JavaScript number: `NaN` or an exact rational. -/
inductive JsNum where
  | nan : JsNum
  | num (q : ℚ) : JsNum
deriving DecidableEq, Repr

/-- The numeric value of a digit string. -/
def digitsToNat (ds : List Char) : ℕ :=
  ds.foldl (fun acc c => 10 * acc + (c.toNat - 48)) 0

/-- `parseFloat` restricted to the strings captured by `[\d.]+`: leading
digits, then optionally a dot with following digits (a second dot stops the
parse); `NaN` when no digit is read. -/
def jsParseFloat (s : String) : JsNum :=
  let intPart := s.data.takeWhile Char.isDigit
  match s.data.dropWhile Char.isDigit with
  | c :: rest2 =>
    if c = '.' then
      (if intPart = [] ∧ rest2.takeWhile Char.isDigit = [] then JsNum.nan
       else JsNum.num ((digitsToNat intPart : ℚ)
        + (digitsToNat (rest2.takeWhile Char.isDigit) : ℚ)
            / ((10 : ℚ) ^ (rest2.takeWhile Char.isDigit).length)))
    else if intPart = [] then JsNum.nan
    else JsNum.num (digitsToNat intPart : ℚ)
  | [] =>
    if intPart = [] then JsNum.nan
    else JsNum.num (digitsToNat intPart : ℚ)

/-- `x < q` on JavaScript numbers: false when `x` is NaN. -/
def JsNum.ltR (x : JsNum) (q : ℚ) : Bool :=
  match x with
  | .nan => false
  | .num a => decide (a < q)

/-- `Math.round(x * 100 * 10) / 10` on a JavaScript number. -/
def JsNum.percent (x : JsNum) : JsNum :=
  match x with
  | .nan => .nan
  | .num a => .num ((jsRound (a * 100 * 10) : ℚ) / 10)

/-- `(1 - x) / 6`, the per-class share of the remaining probability. -/
def JsNum.oneMinusDiv6 (x : JsNum) : JsNum :=
  match x with
  | .nan => .nan
  | .num a => .num ((1 - a) / 6)

/-- Display names of the three varieties. -/
def varietyDisplayOf (variety : String) : Option String :=
  if variety = "ampalaya_bilog" then some ("Ampalaya Bilog")
  else if variety = "patola" then some ("Patola")
  else if variety = "upo_smooth" then some ("Upo (Smooth)")
  else none

/-- The formatted prediction built by `formatPrediction` in
`geminiService.js`.  `predictedClassTag` models the `predictedClass` field;
purely presentational fields (message text, timestamps, processing time,
model name) and the opaque quality/harvest passthrough are omitted. -/
structure GPrediction where
  predictedClassTag : String
  variety : Option String
  gender : Option String
  isFlower : Bool
  confidence : JsNum
  rawScore : JsNum
  isLowConfidence : Bool
  isUncertain : Bool
  shouldReject : Bool
  isNotFlower : Bool
  source : String
  reasoning : Option String
  keyFeatures : List String
  probabilities : List (String × JsNum)
deriving DecidableEq, Repr

/-- The fixed class list of `buildProbabilities`. -/
def geminiClasses : List String :=
  [("ampalaya_bilog_female"), ("ampalaya_bilog_male"), ("patola_female"),
   ("patola_male"), ("upo_smooth_female"), ("upo_smooth_male"), ("not_flower")]

/-- `buildProbabilities`: the predicted class receives the confidence and
every other class an equal share of the remainder. -/
def buildProbabilities (variety gender : String) (confidence : JsNum) :
    List (String × JsNum) :=
  geminiClasses.map (fun cls =>
    (cls,
      if cls = (if variety = "not_flower" then ("not_flower")
                else variety ++ "_" ++ gender)
      then confidence else confidence.oneMinusDiv6))

/-- `formatPrediction` (current version of `geminiService.js`), applied to
the validated variety, gender, confidence, reasoning and key features. -/
def formatPrediction (variety gender : String) (confidence : JsNum)
    (reasoning : Option String) (keyFeatures : List String) : GPrediction :=
  { predictedClassTag :=
      if variety = "not_flower" then ("not_flower")
      else if (varietyDisplayOf variety).isSome ∧ gender ≠ "" then
        variety ++ "_" ++ gender
      else ("unknown")
    variety := varietyDisplayOf variety
    gender := if variety = "not_flower" then none else some gender
    isFlower := decide (¬ variety = "not_flower")
    confidence := confidence.percent
    rawScore := confidence
    isLowConfidence := confidence.ltR 0.65
    isUncertain := confidence.ltR 0.5
    shouldReject := decide (variety = "not_flower") || confidence.ltR 0.5
    isNotFlower := decide (variety = "not_flower")
    source := "gemini"
    reasoning := reasoning
    keyFeatures := keyFeatures
    probabilities := buildProbabilities variety gender confidence }

/-- The parsed or extracted Gemini result; each load-bearing field may be
missing. -/
structure GeminiRaw where
  variety : Option String
  gender : Option String
  confidence : Option JsNum
  reasoning : Option String
  keyFeatures : List String
deriving DecidableEq, Repr

/-- JavaScript truthiness of an optional string. -/
def truthyOpt : Option String → Bool
  | none => false
  | some s => s != ""

/-- The parsing stage of `analyzeFlower` (current version): find a JSON
object and hand it to `JSON.parse` - modelled by the oracle `jsonParse`,
where `none` means the parse throws - and on a parse exception, or when no
object is found at all, fall back to targeted extraction of the variety,
gender and confidence fields, failing only when that extraction fails
too.  (The `else` branch throws "Could not parse Gemini response" on
failure, which the `catch` turns into the same re-extraction and final
"Invalid response format from Gemini" error.) -/
def parseGeminiText (jsonParse : String → Option GeminiRaw) (text : String) :
    Except String GeminiRaw :=
  match jsBraceMatch text with
  | some objText =>
    match jsonParse objText with
    | some g => Except.ok g
    | none =>
      match jsMatchStringField ("variety") text,
          jsMatchStringField ("gender") text,
          jsMatchNumField ("confidence") text with
      | some v, some g, some c =>
        Except.ok
          { variety := some v
            gender := some g
            confidence := some (jsParseFloat c)
            reasoning := some ("Analysis completed (partial response)")
            keyFeatures := [] }
      | _, _, _ => Except.error ("Invalid response format from Gemini")
  | none =>
    match jsMatchStringField ("variety") text,
        jsMatchStringField ("gender") text,
        jsMatchNumField ("confidence") text with
    | some v, some g, some c =>
      Except.ok
        { variety := some v
          gender := some g
          confidence := some (jsParseFloat c)
          reasoning := some ((jsMatchReasoning text).getD ("Analysis completed"))
          keyFeatures := [] }
    | _, _, _ => Except.error ("Invalid response format from Gemini")

/-- The parse-validate-format portion of `analyzeFlower`: a thrown message
is wrapped as a "Gemini analysis failed" error, a structurally incomplete
result is rejected after parsing, and a complete one is formatted. -/
def analyzeFlowerParse (jsonParse : String → Option GeminiRaw) (text : String) :
    Except String GPrediction :=
  match parseGeminiText jsonParse text with
  | Except.error e => Except.error ("Gemini analysis failed: " ++ e)
  | Except.ok g =>
    if truthyOpt g.variety && truthyOpt g.gender && g.confidence.isSome then
      Except.ok (formatPrediction (g.variety.getD "") (g.gender.getD "")
        (g.confidence.getD JsNum.nan) g.reasoning g.keyFeatures)
    else
      Except.error ("Gemini analysis failed: " ++ "Incomplete response from Gemini")

/-- Claim C3: on agreeing inputs (equal variety and equal gender) the
comparison reports `agree = true` and recommends the side with the higher
raw confidence, ties going to the remote ("gemini") source. -/
theorem C3_agreement_rule (tf gm : CmpPred)
    (h1 : tf.variety = gm.variety) (h2 : tf.gender = gm.gender) :
    (comparePredictions tf gm).agree = true
    ∧ (tf.rawScore ≤ gm.rawScore →
        (comparePredictions tf gm).recommendation = "gemini")
    ∧ (gm.rawScore < tf.rawScore →
        (comparePredictions tf gm).recommendation = "tflite") := by
  refine ⟨by simp [comparePredictions, h1, h2], ?_, ?_⟩
  · intro hle
    simp [comparePredictions, h1, h2, hle]
  · intro hlt
    simp [comparePredictions, h1, h2, not_le.mpr hlt]

/-- Witness for C3, at the concrete pair from the spec: local
{Patola, male, 0.80} versus remote {Patola, male, 0.92} gives agreement and
the remote recommendation. -/
theorem C3_agreement_rule_witness :
    (comparePredictions ⟨some ("Patola"), some ("male"), 0.8⟩
        ⟨some ("Patola"), some ("male"), 0.92⟩).agree = true
    ∧ (comparePredictions ⟨some ("Patola"), some ("male"), 0.8⟩
        ⟨some ("Patola"), some ("male"), 0.92⟩).recommendation = "gemini" := by
  have h := C3_agreement_rule ⟨some ("Patola"), some ("male"), 0.8⟩
    ⟨some ("Patola"), some ("male"), 0.92⟩ rfl rfl
  exact ⟨h.1, h.2.1 (by norm_num)⟩

/-- Claim C1 is false on the code: in the gender-mismatch case
(local female, remote male) with remote confidence 0.90 (< 0.98), the claim
demands the local recommendation, but with local confidence 0.60 (≤ 0.65)
the code leaves the recommendation at "manual". -/
theorem C1_gender_guard_counterexample :
    (comparePredictions ⟨some ("Patola"), some ("female"), 0.6⟩
        ⟨some ("Patola"), some ("male"), 0.9⟩).recommendation = "manual"
    ∧ (comparePredictions ⟨some ("Patola"), some ("female"), 0.6⟩
        ⟨some ("Patola"), some ("male"), 0.9⟩).recommendation ≠ "tflite" := by
  have h : (comparePredictions ⟨some ("Patola"), some ("female"), 0.6⟩
      ⟨some ("Patola"), some ("male"), 0.9⟩).recommendation = "manual" := by
    simp only [comparePredictions]
    rw [if_neg (by decide), if_neg (by decide), if_pos (by decide),
        if_neg (by norm_num), if_neg (by norm_num)]
  exact ⟨h, by rw [h]; decide⟩

/-- Claim C1 as amended: for a disagreeing pair with local gender female and
remote gender male, outside the species-guard pairing, the code recommends
the remote source when remote confidence ≥ 0.98; the local source when
remote confidence < 0.98 and local confidence > 0.65; and "manual" when
remote confidence < 0.98 and local confidence ≤ 0.65. -/
theorem C1_gender_guard_amended (tf gm : CmpPred)
    (hf : tf.gender = some ("female")) (hm : gm.gender = some ("male"))
    (hnotspecies :
      ¬(tf.variety = some ("Upo (Smooth)") ∧ gm.variety = some ("Ampalaya Bilog"))) :
    (0.98 ≤ gm.rawScore →
        (comparePredictions tf gm).recommendation = "gemini")
    ∧ (gm.rawScore < 0.98 ∧ 0.65 < tf.rawScore →
        (comparePredictions tf gm).recommendation = "tflite")
    ∧ (gm.rawScore < 0.98 ∧ tf.rawScore ≤ 0.65 →
        (comparePredictions tf gm).recommendation = "manual") := by
  have hgender : ¬(tf.gender = gm.gender) := by
    rw [hf, hm]; simp
  have hagree : ¬(tf.variety = gm.variety ∧ tf.gender = gm.gender) := by
    intro h; exact hgender h.2
  refine ⟨?_, ?_, ?_⟩
  · intro hge
    have h1 : ¬(gm.rawScore < 0.98 ∧ 0.65 < tf.rawScore) := by
      intro h; linarith [h.1]
    simp [comparePredictions, hagree, hnotspecies, hf, hm, h1, hge]
  · intro h
    simp [comparePredictions, hagree, hnotspecies, hf, hm, h]
  · intro h
    have h1 : ¬(gm.rawScore < 0.98 ∧ 0.65 < tf.rawScore) := by
      intro hx; linarith [hx.2, h.2]
    have h2 : ¬(0.98 ≤ gm.rawScore) := by linarith [h.1]
    simp [comparePredictions, hagree, hnotspecies, hf, hm, h1, h2]

/-- Witness for the amended C1: local {Patola, female, 0.95} versus remote
{Patola, male, 0.99} gives the remote recommendation (the ≥ 0.98 exception),
and dropping the remote confidence to 0.90 gives the local one. -/
theorem C1_gender_guard_amended_witness :
    (comparePredictions ⟨some ("Patola"), some ("female"), 0.95⟩
        ⟨some ("Patola"), some ("male"), 0.99⟩).recommendation = "gemini"
    ∧ (comparePredictions ⟨some ("Patola"), some ("female"), 0.95⟩
        ⟨some ("Patola"), some ("male"), 0.9⟩).recommendation = "tflite" := by
  have h1 := C1_gender_guard_amended ⟨some ("Patola"), some ("female"), 0.95⟩
    ⟨some ("Patola"), some ("male"), 0.99⟩ rfl rfl (by simp)
  have h2 := C1_gender_guard_amended ⟨some ("Patola"), some ("female"), 0.95⟩
    ⟨some ("Patola"), some ("male"), 0.9⟩ rfl rfl (by simp)
  exact ⟨h1.1 (by norm_num), h2.2.1 (by norm_num)⟩

/-- Claim C2 is false on the code, in two ways.  First, at local confidence
exactly 0.80 the claim's species guard (confidence ≥ 0.80) demands the local
recommendation, but the code tests a strict `> 0.8` and leaves "manual".
Second, when the species pairing holds but the confidence bound fails, the
claim says the subsequent rules decide (here remote 0.99 ≥ 0.95 and local
0.50 < 0.70 would give the remote side), yet the code skips every later
rule and returns "manual". -/
theorem C2_species_guard_counterexample :
    (comparePredictions ⟨some ("Upo (Smooth)"), some ("male"), 0.8⟩
        ⟨some ("Ampalaya Bilog"), some ("male"), 0.85⟩).recommendation = "manual"
    ∧ (comparePredictions ⟨some ("Upo (Smooth)"), some ("male"), 0.5⟩
        ⟨some ("Ampalaya Bilog"), some ("male"), 0.99⟩).recommendation = "manual" := by
  constructor
  · simp only [comparePredictions]
    rw [if_neg (by decide), if_pos (by decide), if_neg (by norm_num)]
  · simp only [comparePredictions]
    rw [if_neg (by decide), if_pos (by decide), if_neg (by norm_num)]

/-- Claim C2 as amended: the disagreement rules are evaluated top-to-bottom
with the first match winning; whenever the species pairing holds (local
variety "Upo (Smooth)" and remote variety "Ampalaya Bilog") the guard alone
decides - local when local confidence is strictly above 0.80, otherwise
"manual" with every later rule skipped; only disagreeing pairs without that
variety pairing are decided by the subsequent rules in order. -/
theorem C2_species_guard_amended (tf gm : CmpPred)
    (hdis : (comparePredictions tf gm).agree = false) :
    ((tf.variety = some ("Upo (Smooth)") ∧ gm.variety = some ("Ampalaya Bilog")) →
        (0.8 < tf.rawScore →
          (comparePredictions tf gm).recommendation = "tflite")
        ∧ (tf.rawScore ≤ 0.8 →
          (comparePredictions tf gm).recommendation = "manual"))
    ∧ (¬(tf.variety = some ("Upo (Smooth)") ∧ gm.variety = some ("Ampalaya Bilog")) →
        ((tf.gender = some ("female") ∧ gm.gender = some ("male")) →
            (0.98 ≤ gm.rawScore →
              (comparePredictions tf gm).recommendation = "gemini")
            ∧ (gm.rawScore < 0.98 ∧ 0.65 < tf.rawScore →
              (comparePredictions tf gm).recommendation = "tflite")
            ∧ (gm.rawScore < 0.98 ∧ tf.rawScore ≤ 0.65 →
              (comparePredictions tf gm).recommendation = "manual"))
        ∧ (¬(tf.gender = some ("female") ∧ gm.gender = some ("male")) →
            (0.98 ≤ tf.rawScore →
              (comparePredictions tf gm).recommendation = "tflite")
            ∧ (tf.rawScore < 0.98 →
                (0.95 ≤ gm.rawScore ∧ tf.rawScore < 0.7 →
                  (comparePredictions tf gm).recommendation = "gemini")
                ∧ (¬(0.95 ≤ gm.rawScore ∧ tf.rawScore < 0.7) →
                    (0.9 ≤ tf.rawScore ∧ gm.rawScore < 0.9 →
                      (comparePredictions tf gm).recommendation = "tflite")
                    ∧ (¬(0.9 ≤ tf.rawScore ∧ gm.rawScore < 0.9) →
                        (0.9 ≤ gm.rawScore ∧ tf.rawScore < 0.8 →
                          (comparePredictions tf gm).recommendation = "gemini")
                        ∧ (¬(0.9 ≤ gm.rawScore ∧ tf.rawScore < 0.8) →
                          (comparePredictions tf gm).recommendation = "manual")))))) := by
  have hagree : ¬(tf.variety = gm.variety ∧ tf.gender = gm.gender) := by
    intro h
    simp [comparePredictions, h.1, h.2] at hdis
  constructor
  · intro hsp
    constructor
    · intro hconf
      simp [comparePredictions, hagree, hsp, hconf]
    · intro hconf
      simp [comparePredictions, hagree, hsp, not_lt.mpr hconf]
  · intro hnsp
    constructor
    · intro hgen
      refine ⟨?_, ?_, ?_⟩
      · intro hge
        have h1 : ¬(gm.rawScore < 0.98 ∧ 0.65 < tf.rawScore) := by
          intro h; linarith [h.1]
        simp [comparePredictions, hagree, hnsp, hgen, h1, hge]
      · intro h
        simp [comparePredictions, hagree, hnsp, hgen, h]
      · intro h
        have h1 : ¬(gm.rawScore < 0.98 ∧ 0.65 < tf.rawScore) := by
          intro hx; linarith [hx.2, h.2]
        have h2 : ¬(0.98 ≤ gm.rawScore) := by linarith [h.1]
        simp [comparePredictions, hagree, hnsp, hgen, h1, h2]
    · intro hngen
      constructor
      · intro h98
        simp [comparePredictions, hagree, hnsp, hngen, h98]
      · intro h98
        have hn98 : ¬(0.98 ≤ tf.rawScore) := not_le.mpr h98
        refine ⟨?_, ?_⟩
        · intro h95
          simp [comparePredictions, hagree, hnsp, hngen, hn98, h95]
        · intro hn95
          refine ⟨?_, ?_⟩
          · intro h90
            simp [comparePredictions, hagree, hnsp, hngen, hn98, hn95, h90]
          · intro hn90
            refine ⟨?_, ?_⟩
            · intro h90g
              simp [comparePredictions, hagree, hnsp, hngen, hn98, hn95, hn90, h90g]
            · intro hn90g
              simp [comparePredictions, hagree, hnsp, hngen, hn98, hn95, hn90, hn90g]

/-- Witness for the amended C2: at local {Upo (Smooth), male, 0.85} versus
remote {Ampalaya Bilog, male, 0.99} the species guard fires and the local
side is recommended; at local confidence 0.80 exactly the guard degenerates
to "manual". -/
theorem C2_species_guard_amended_witness :
    (comparePredictions ⟨some ("Upo (Smooth)"), some ("male"), 0.85⟩
        ⟨some ("Ampalaya Bilog"), some ("male"), 0.99⟩).recommendation = "tflite"
    ∧ (comparePredictions ⟨some ("Upo (Smooth)"), some ("male"), 0.8⟩
        ⟨some ("Ampalaya Bilog"), some ("male"), 0.99⟩).recommendation = "manual" := by
  have h1 := C2_species_guard_amended ⟨some ("Upo (Smooth)"), some ("male"), 0.85⟩
    ⟨some ("Ampalaya Bilog"), some ("male"), 0.99⟩ (by decide)
  have h2 := C2_species_guard_amended ⟨some ("Upo (Smooth)"), some ("male"), 0.8⟩
    ⟨some ("Ampalaya Bilog"), some ("male"), 0.99⟩ (by decide)
  exact ⟨(h1.1 ⟨rfl, rfl⟩).1 (by norm_num), (h2.1 ⟨rfl, rfl⟩).2 (by norm_num)⟩

/-- Claim C10: the legacy and the current `comparePredictions` return
identical `ComparisonResult`s on every agreeing input pair (equal variety
and equal gender). -/
theorem C10_versions_agree_on_agreement (tf gm : CmpPred)
    (h1 : tf.variety = gm.variety) (h2 : tf.gender = gm.gender) :
    comparePredictionsLegacy tf gm = comparePredictions tf gm := by
  simp [comparePredictionsLegacy, comparePredictions, h1, h2]

/-- Witness for C10 at a concrete agreeing pair. -/
theorem C10_versions_agree_on_agreement_witness :
    comparePredictionsLegacy ⟨some ("Ampalaya Bilog"), some ("female"), 0.77⟩
        ⟨some ("Ampalaya Bilog"), some ("female"), 0.66⟩
      = comparePredictions ⟨some ("Ampalaya Bilog"), some ("female"), 0.77⟩
        ⟨some ("Ampalaya Bilog"), some ("female"), 0.66⟩ :=
  C10_versions_agree_on_agreement _ _ rfl rfl

/-- Membership is preserved by the stable insertion. -/
theorem mem_insertByDesc {α : Type} (key : α → ℚ) (x a : α) (l : List α) :
    a ∈ insertByDesc key x l ↔ a = x ∨ a ∈ l := by
  induction l with
  | nil => simp [insertByDesc]
  | cons y ys ih =>
    simp only [insertByDesc]
    split_ifs with h
    · simp only [List.mem_cons]
    · simp only [List.mem_cons, ih]
      tauto

/-- Membership characterisation of the fold that implements the sort. -/
theorem mem_foldl_insertByDesc {α : Type} (key : α → ℚ) (l : List α) :
    ∀ (acc : List α) (a : α),
      (a ∈ l.foldl (fun acc x => insertByDesc key x acc) acc ↔ a ∈ acc ∨ a ∈ l) := by
  induction l with
  | nil => intro acc a; simp
  | cons x xs ih =>
    intro acc a
    simp only [List.foldl_cons]
    rw [ih (insertByDesc key x acc) a, mem_insertByDesc]
    simp [List.mem_cons]
    tauto

/-- The sort is a permutation at the level of membership. -/
theorem mem_jsSortDesc {α : Type} (key : α → ℚ) (l : List α) (a : α) :
    a ∈ jsSortDesc key l ↔ a ∈ l := by
  rw [jsSortDesc, mem_foldl_insertByDesc]
  simp

theorem jsSortDesc_ne_nil {α : Type} (key : α → ℚ) {l : List α} (h : l ≠ []) :
    jsSortDesc key l ≠ [] := by
  obtain ⟨a, ha⟩ := List.exists_mem_of_ne_nil l h
  intro h0
  have := (mem_jsSortDesc key l a).mpr ha
  rw [h0] at this
  simp at this

/-- The stable insertion preserves the descending-sorted property. -/
theorem insertByDesc_pairwise {α : Type} (key : α → ℚ) (x : α) {l : List α}
    (h : l.Pairwise (fun a b => key b ≤ key a)) :
    (insertByDesc key x l).Pairwise (fun a b => key b ≤ key a) := by
  induction l with
  | nil => simp [insertByDesc]
  | cons y ys ih =>
    rw [List.pairwise_cons] at h
    simp only [insertByDesc]
    split_ifs with hlt
    · refine List.Pairwise.cons ?_ (List.Pairwise.cons h.1 h.2)
      intro b hb
      rcases List.mem_cons.mp hb with rfl | hb
      · exact le_of_lt hlt
      · exact le_trans (h.1 b hb) (le_of_lt hlt)
    · refine List.Pairwise.cons ?_ (ih h.2)
      intro b hb
      rcases (mem_insertByDesc key x b ys).mp hb with rfl | hb
      · exact not_lt.mp hlt
      · exact h.1 b hb

/-- The result of the sort is descending-sorted. -/
theorem jsSortDesc_pairwise {α : Type} (key : α → ℚ) (l : List α) :
    (jsSortDesc key l).Pairwise (fun a b => key b ≤ key a) := by
  rw [jsSortDesc]
  have : ∀ (acc : List α), acc.Pairwise (fun a b => key b ≤ key a) →
      (l.foldl (fun acc x => insertByDesc key x acc) acc).Pairwise
        (fun a b => key b ≤ key a) := by
    induction l with
    | nil => intro acc hacc; exact hacc
    | cons x xs ih =>
      intro acc hacc
      exact ih _ (insertByDesc_pairwise key x hacc)
  exact this [] (by simp)

/-- Inserting an element whose key is at most every key of the list appends
it at the end (this is where the tie-breaking stability shows up). -/
theorem insertByDesc_append_last {α : Type} (key : α → ℚ) (x : α) {l : List α}
    (h : ∀ y ∈ l, key x ≤ key y) : insertByDesc key x l = l ++ [x] := by
  induction l with
  | nil => rfl
  | cons y ys ih =>
    simp only [insertByDesc]
    rw [if_neg (not_lt.mpr (h y (List.mem_cons_self y ys)))]
    rw [ih (fun z hz => h z (List.mem_cons_of_mem y hz))]
    simp

/-- Sorting a list that is already descending-sorted leaves it unchanged. -/
theorem jsSortDesc_eq_self {α : Type} (key : α → ℚ) {l : List α}
    (h : l.Pairwise (fun a b => key b ≤ key a)) : jsSortDesc key l = l := by
  induction l using List.reverseRecOn with
  | nil => rfl
  | append_singleton ys x ih =>
    rw [List.pairwise_append] at h
    rw [jsSortDesc, List.foldl_append]
    rw [show ys.foldl (fun acc x => insertByDesc key x acc) [] = jsSortDesc key ys from rfl]
    rw [ih h.1]
    simp only [List.foldl_cons, List.foldl_nil]
    exact insertByDesc_append_last key x
      (fun y hy => h.2.2 y hy x (List.mem_singleton_self x))

/-- Sorting after a `push` is the same as inserting into the sorted list. -/
theorem jsSortDesc_snoc {α : Type} (key : α → ℚ) (l : List α) (x : α) :
    jsSortDesc key (l ++ [x]) = insertByDesc key x (jsSortDesc key l) := by
  rw [jsSortDesc, List.foldl_append]
  rfl

/-- The head of the sorted list is a maximal element of the input. -/
theorem jsSortDesc_headD_max {α : Type} (key : α → ℚ) (l : List α) (d : α)
    (hne : l ≠ []) :
    (jsSortDesc key l).headD d ∈ l
    ∧ ∀ y ∈ l, key y ≤ key ((jsSortDesc key l).headD d) := by
  have hsne : jsSortDesc key l ≠ [] := jsSortDesc_ne_nil key hne
  obtain ⟨h, t, heq⟩ := List.exists_cons_of_ne_nil hsne
  have hp := jsSortDesc_pairwise key l
  rw [heq] at hp
  rw [heq]
  simp only [List.headD_cons]
  constructor
  · have : h ∈ jsSortDesc key l := by rw [heq]; exact List.mem_cons_self h t
    exact (mem_jsSortDesc key l h).mp this
  · intro y hy
    have hy2 : y ∈ jsSortDesc key l := (mem_jsSortDesc key l y).mpr hy
    rw [heq] at hy2
    rcases List.mem_cons.mp hy2 with rfl | hyt
    · exact le_refl _
    · exact (List.pairwise_cons.mp hp).1 y hyt

/-- Every vocabulary entry of the probability array is non-synthetic. -/
theorem buildPredictionsAux_isSynthetic (avgProbs : List ℚ) :
    ∀ (i : ℕ) (labels : List String) (x : TMPred),
      x ∈ buildPredictionsAux avgProbs i labels → x.isSynthetic = false := by
  intro i labels
  induction labels generalizing i with
  | nil => intro x hx; simp [buildPredictionsAux] at hx
  | cons l ls ih =>
    intro x hx
    simp only [buildPredictionsAux, List.mem_cons] at hx
    rcases hx with rfl | hx
    · rfl
    · exact ih (i + 1) x hx

theorem buildPredictions_ne_nil (avgProbs : List ℚ) :
    buildPredictions avgProbs ≠ [] := by
  intro h
  simp [buildPredictions, TM_LABELS, buildPredictionsAux] at h

theorem tmSorted_isSynthetic (avgProbs : List ℚ) (x : TMPred)
    (hx : x ∈ tmSorted avgProbs) : x.isSynthetic = false := by
  rw [tmSorted, mem_jsSortDesc] at hx
  exact buildPredictionsAux_isSynthetic avgProbs 0 TM_LABELS x hx

/-- Claim C7 is false on the code: for the smoothed distribution
(0.55, 0.09, 0.09, 0.09, 0.09, 0.09) the synthesized reject probability
0.45 exceeds every other original probability, so the claim demands that the
output top-1 become the reject sentinel with probability 0.45; but the
original top-1 keeps probability 0.55 > 0.45 and stays on top. -/
theorem C7_reject_synthesis_counterexample :
    (tmPredict [0.55, 0.09, 0.09, 0.09, 0.09, 0.09]).topPrediction.label
        = "Ampalaya Bilog Male"
    ∧ (tmPredict [0.55, 0.09, 0.09, 0.09, 0.09, 0.09]).topPrediction.label
        ≠ "Not Flower"
    ∧ (tmPredict [0.55, 0.09, 0.09, 0.09, 0.09, 0.09]).isUncertain = true := by
  have h1 : (tmPredict [0.55, 0.09, 0.09, 0.09, 0.09, 0.09]).topPrediction.label
      = "Ampalaya Bilog Male" := by
    norm_num [tmPredict, tmTop0, tmSorted, buildPredictions, TM_LABELS,
      buildPredictionsAux, jsSortDesc, insertByDesc, notFlowerEntry]
  refine ⟨h1, by rw [h1]; decide, ?_⟩
  norm_num [tmPredict, tmTop0, tmSorted, buildPredictions, TM_LABELS,
    buildPredictionsAux, jsSortDesc, insertByDesc, notFlowerEntry]

/-- Claim C7 as amended: when the top-1 averaged probability `p` is below
the 0.70 threshold, a synthetic "Not Flower" entry with probability `1 - p`
is appended and the distribution re-sorted descending; the synthesized entry
becomes the new top-1 exactly when `1 - p` strictly exceeds `p` (that is,
when `p < 1/2`), and otherwise the original top-1 is kept. -/
theorem C7_reject_synthesis_amended (avgProbs : List ℚ)
    (hunc : (tmTop0 avgProbs).probability < 0.7) :
    (tmPredict avgProbs).isUncertain = true
    ∧ (tmPredict avgProbs).predictions
        = jsSortDesc TMPred.probability
            (tmSorted avgProbs ++ [notFlowerEntry (tmTop0 avgProbs).probability])
    ∧ ((tmPredict avgProbs).topPrediction.isSynthetic = true
        ↔ (tmTop0 avgProbs).probability < 1 - (tmTop0 avgProbs).probability)
    ∧ ((tmTop0 avgProbs).probability < 1 - (tmTop0 avgProbs).probability →
        (tmPredict avgProbs).topPrediction
          = notFlowerEntry (tmTop0 avgProbs).probability)
    ∧ (1 - (tmTop0 avgProbs).probability ≤ (tmTop0 avgProbs).probability →
        (tmPredict avgProbs).topPrediction = tmTop0 avgProbs) := by
  have hne : tmSorted avgProbs ≠ [] :=
    jsSortDesc_ne_nil _ (buildPredictions_ne_nil avgProbs)
  obtain ⟨h0, t0, heq⟩ := List.exists_cons_of_ne_nil hne
  have htop0 : tmTop0 avgProbs = h0 := by
    rw [tmTop0, heq]
    rfl
  have hpair : (tmSorted avgProbs).Pairwise
      (fun a b => TMPred.probability b ≤ TMPred.probability a) := by
    rw [tmSorted]
    exact jsSortDesc_pairwise _ _
  have hsnoc : jsSortDesc TMPred.probability
      (tmSorted avgProbs ++ [notFlowerEntry (tmTop0 avgProbs).probability])
      = insertByDesc TMPred.probability
          (notFlowerEntry (tmTop0 avgProbs).probability) (tmSorted avgProbs) := by
    rw [jsSortDesc_snoc]
    rw [show jsSortDesc TMPred.probability (tmSorted avgProbs) = tmSorted avgProbs from
      jsSortDesc_eq_self _ hpair]
  have hP : tmPredict avgProbs =
      { predictions := jsSortDesc TMPred.probability
          (tmSorted avgProbs ++ [notFlowerEntry (tmTop0 avgProbs).probability])
        topPrediction := (jsSortDesc TMPred.probability
          (tmSorted avgProbs ++ [notFlowerEntry (tmTop0 avgProbs).probability])).headD
            defaultTMPred
        isUncertain := true } := by
    rw [tmPredict]
    simp only []
    rw [if_pos hunc]
  have hsyn0 : h0.isSynthetic = false := by
    apply tmSorted_isSynthetic avgProbs h0
    rw [heq]
    exact List.mem_cons_self h0 t0
  have hnfprob : (notFlowerEntry (tmTop0 avgProbs).probability).probability
      = 1 - (tmTop0 avgProbs).probability := rfl
  rcases lt_or_le (tmTop0 avgProbs).probability (1 - (tmTop0 avgProbs).probability)
    with hcase | hcase
  · -- the synthesized entry outranks the old top
    have hhead : (jsSortDesc TMPred.probability
        (tmSorted avgProbs ++ [notFlowerEntry (tmTop0 avgProbs).probability])).headD
          defaultTMPred = notFlowerEntry (tmTop0 avgProbs).probability := by
      rw [hsnoc, heq]
      simp only [insertByDesc]
      rw [if_pos (by rw [hnfprob, ← htop0]; exact hcase)]
      rfl
    refine ⟨by rw [hP], by rw [hP], ?_, ?_, ?_⟩
    · rw [hP]
      simp only [hhead]
      constructor
      · intro _
        exact hcase
      · intro _
        rfl
    · intro _
      rw [hP]
      simp only [hhead]
    · intro hle
      exfalso
      linarith
  · -- the old top survives the re-sort
    have hhead : (jsSortDesc TMPred.probability
        (tmSorted avgProbs ++ [notFlowerEntry (tmTop0 avgProbs).probability])).headD
          defaultTMPred = h0 := by
      rw [hsnoc, heq]
      simp only [insertByDesc]
      rw [if_neg (by rw [hnfprob, ← htop0]; exact not_lt.mpr hcase)]
      rfl
    refine ⟨by rw [hP], by rw [hP], ?_, ?_, ?_⟩
    · rw [hP]
      simp only [hhead]
      constructor
      · intro hsyn
        rw [hsyn0] at hsyn
        exact absurd hsyn (by simp)
      · intro hlt
        exfalso
        linarith
    · intro hlt
      exfalso
      linarith
    · intro _
      rw [hP]
      simp only [hhead]
      rw [htop0]

/-- Witness for the amended C7: on the distribution
(0.55, 0.09, 0.09, 0.09, 0.09, 0.09) the threshold fires (0.55 < 0.70) but
1 - 0.55 = 0.45 ≤ 0.55, so the reported top prediction is the original
top-1, not the synthesized entry. -/
theorem C7_reject_synthesis_amended_witness :
    (tmPredict [0.55, 0.09, 0.09, 0.09, 0.09, 0.09]).isUncertain = true
    ∧ (tmPredict [0.55, 0.09, 0.09, 0.09, 0.09, 0.09]).topPrediction
        = tmTop0 [0.55, 0.09, 0.09, 0.09, 0.09, 0.09] := by
  have htop : (tmTop0 [(0.55 : ℚ), 0.09, 0.09, 0.09, 0.09, 0.09]).probability = 0.55 := by
    norm_num [tmTop0, tmSorted, buildPredictions, TM_LABELS, buildPredictionsAux,
      jsSortDesc, insertByDesc]
  have h := C7_reject_synthesis_amended [0.55, 0.09, 0.09, 0.09, 0.09, 0.09]
    (by rw [htop]; norm_num)
  exact ⟨h.1, h.2.2.2.2 (by rw [htop]; norm_num)⟩

/-- The smoothing history is exactly the last five raw distributions fed. -/
theorem feedHistory_eq_drop (xs : List (List ℚ)) :
    feedHistory xs = xs.drop (xs.length - 5) := by
  induction xs using List.reverseRecOn with
  | nil => rfl
  | append_singleton l x ih =>
    rw [feedHistory, List.foldl_append]
    rw [show l.foldl pushHistory [] = feedHistory l from rfl, ih]
    simp only [List.foldl_cons, List.foldl_nil]
    simp only [pushHistory]
    rcases le_or_lt l.length 4 with hl | hl
    · have h0 : l.length - 5 = 0 := by omega
      have h1 : (l ++ [x]).length - 5 = 0 := by
        simp only [List.length_append, List.length_cons, List.length_nil]
        omega
      rw [h0, List.drop_zero, h1, List.drop_zero]
      rw [if_neg (by simp only [List.length_append, List.length_cons, List.length_nil]; omega)]
    · have hd5 : (l.drop (l.length - 5)).length = 5 := by
        rw [List.length_drop]
        omega
      have hdne : l.drop (l.length - 5) ≠ [] := by
        intro h
        rw [h] at hd5
        simp at hd5
      obtain ⟨c, d, hcd⟩ := List.exists_cons_of_ne_nil hdne
      rw [if_pos (by rw [List.length_append, hd5]; simp)]
      have htail : (l.drop (l.length - 5) ++ [x]).tail = l.drop (l.length - 4) ++ [x] := by
        rw [hcd]
        have : (c :: d) ++ [x] = c :: (d ++ [x]) := rfl
        rw [this, List.tail_cons]
        have hdtail : d = l.drop (l.length - 4) := by
          have : (l.drop (l.length - 5)).tail = l.drop (l.length - 5 + 1) := List.tail_drop l _
          rw [hcd] at this
          simp only [List.tail_cons] at this
          rw [this]
          congr 1
          omega
        rw [hdtail]
      rw [htail]
      have hlen : (l ++ [x]).length - 5 = l.length - 4 := by
        simp only [List.length_append, List.length_cons, List.length_nil]
        omega
      rw [hlen]
      rw [List.drop_append_eq_append_drop]
      have : l.length - 4 - l.length = 0 := by omega
      rw [this, List.drop_zero]

/-- Claim C8 is false on the code: after feeding six distinct raw
distributions, the fifth-from-last one is still inside the five-entry
window, so changing it does change the averaged output. -/
theorem C8_window_counterexample :
    averagedProbs (feedHistory [[0], [10], [2], [3], [4], [5]])
      ≠ averagedProbs (feedHistory [[0], [20], [2], [3], [4], [5]]) := by
  intro h
  have h0 := congrArg (fun l => l.headD (0 : ℚ)) h
  norm_num [feedHistory, pushHistory, averagedProbs, List.range_succ] at h0

/-- Claim C8 as amended: the smoother keeps a FIFO window of the last five
raw distributions (the oldest is evicted when a sixth arrives), the output
is a function of the windowed entries only, and it is the sixth-from-last
entry (the one just evicted) that no longer influences the averaged
output. -/
theorem C8_window_amended (pre : List (List ℚ)) (a b : List ℚ)
    (suf : List (List ℚ)) (hlen : suf.length = 5) :
    feedHistory (pre ++ a :: suf) = suf
    ∧ averagedProbs (feedHistory (pre ++ a :: suf))
        = averagedProbs (feedHistory (pre ++ b :: suf)) := by
  have key : ∀ c : List ℚ, feedHistory (pre ++ c :: suf) = suf := by
    intro c
    rw [feedHistory_eq_drop]
    have h1 : (pre ++ c :: suf).length - 5 = (pre ++ [c]).length := by
      simp only [List.length_append, List.length_cons, List.length_nil, hlen]
      omega
    rw [h1]
    rw [show pre ++ c :: suf = (pre ++ [c]) ++ suf by simp]
    exact List.drop_left _ _
  exact ⟨key a, by rw [key a, key b]⟩

/-- Witness for the amended C8: with five distributions after it, the
sixth-from-last raw distribution (here [7] against [8]) does not affect the
averaged output. -/
theorem C8_window_amended_witness :
    feedHistory ([[(9 : ℚ)]] ++ [7] :: [[1], [2], [3], [4], [5]])
      = [[1], [2], [3], [4], [5]]
    ∧ averagedProbs (feedHistory ([[(9 : ℚ)]] ++ [7] :: [[1], [2], [3], [4], [5]]))
        = averagedProbs (feedHistory ([[(9 : ℚ)]] ++ [8] :: [[1], [2], [3], [4], [5]])) :=
  C8_window_amended [[9]] [7] [8] [[1], [2], [3], [4], [5]] rfl

/-- The pushed history always ends with the entry just pushed. -/
theorem pushRecent_eq_append (prior : List ScanEntry) (current : ScanEntry) :
    ∃ q, pushRecent prior current = q ++ [current] := by
  simp only [pushRecent]
  split_ifs with h
  · cases prior with
    | nil => simp at h
    | cons a as => exact ⟨as, by simp⟩
  · exact ⟨prior, rfl⟩

/-- The last-five window of a history ending in `x` keeps `x` last. -/
theorem lastFive_append (q : List ScanEntry) (x : ScanEntry) :
    lastFive (q ++ [x]) = q.drop ((q ++ [x]).length - 5) ++ [x] := by
  rw [lastFive, List.drop_append_eq_append_drop]
  have h : (q ++ [x]).length - 5 - q.length = 0 := by
    simp only [List.length_append, List.length_cons, List.length_nil]
    omega
  rw [h, List.drop_zero]

/-- Claim C5: the per-tick stability flag is true exactly when the history
after the push holds at least five entries, the last five all carry one
identical label, and that label is not the reject sentinel. -/
theorem C5_stability_iff (prior : List ScanEntry) (current : ScanEntry) :
    isStableTick prior current = true ↔
      (5 ≤ (pushRecent prior current).length
       ∧ ∃ l, l ≠ rejectLabel
           ∧ ∀ p ∈ lastFive (pushRecent prior current), p.label = l) := by
  obtain ⟨q, hq⟩ := pushRecent_eq_append prior current
  have hmem : current ∈ lastFive (pushRecent prior current) := by
    rw [hq, lastFive_append]
    exact List.mem_append_right _ (List.mem_singleton_self current)
  have hlen5 : (lastFive (pushRecent prior current)).length
      = (pushRecent prior current).length - ((pushRecent prior current).length - 5) := by
    rw [lastFive, List.length_drop]
  constructor
  · intro h
    simp only [isStableTick, stableNow, Bool.and_eq_true, decide_eq_true_eq,
      List.all_eq_true, bne_iff_ne] at h
    obtain ⟨⟨h1, h2⟩, h3⟩ := h
    refine ⟨by omega, current.label, h3, ?_⟩
    intro p hp
    exact beq_iff_eq.mp (h2 p hp)
  · rintro ⟨hlen, l, hlne, hall⟩
    have hcur : current.label = l := hall current hmem
    simp only [isStableTick, stableNow, Bool.and_eq_true, decide_eq_true_eq,
      List.all_eq_true, bne_iff_ne]
    refine ⟨⟨by omega, ?_⟩, by rw [hcur]; exact hlne⟩
    intro p hp
    rw [beq_iff_eq, hall p hp, hcur]

/-- Witness for C5: four identical labels followed by a fifth identical
non-reject label set the stability flag. -/
theorem C5_stability_iff_witness :
    isStableTick
      [⟨"Patola Female", 80, "a", 0, 0⟩, ⟨"Patola Female", 81, "b", 0, 0⟩,
       ⟨"Patola Female", 82, "c", 0, 0⟩, ⟨"Patola Female", 83, "d", 0, 0⟩]
      ⟨"Patola Female", 84, "e", 0, 0⟩ = true :=
  (C5_stability_iff _ _).mpr ⟨by decide, "Patola Female", by decide, by decide⟩

/-- Claim C6: the stored best frame is mutated only on stable non-reject
ticks; on such ticks it is replaced from the empty state (any positive
incoming confidence), and is replaced in both the same-label and the
different-label branch exactly when the incoming confidence strictly
exceeds the stored one; otherwise it is unchanged, and its confidence never
decreases.  The hypothesis `0 < current.confidence` holds on every real
tick: a non-reject top prediction always carries probability at least 1/2,
hence a percentage of at least 50. -/
theorem C6_bestframe_invariant (prior : List ScanEntry) (current : ScanEntry)
    (bf : BestFrameState) (hconf : 0 < current.confidence) :
    (isStableTick prior current = false → updateBestFrame prior current bf = bf)
    ∧ (isStableTick prior current = true →
        ((bf = BestFrameState.empty →
            updateBestFrame prior current bf
              = mkBestFrame current (pushRecent prior current))
         ∧ (bf.label = some current.label →
              (bf.confidence < current.confidence →
                updateBestFrame prior current bf
                  = mkBestFrame current (pushRecent prior current))
              ∧ (current.confidence ≤ bf.confidence →
                updateBestFrame prior current bf = bf))
         ∧ (bf.label ≠ some current.label →
              (bf.confidence < current.confidence →
                updateBestFrame prior current bf
                  = mkBestFrame current (pushRecent prior current))
              ∧ (current.confidence ≤ bf.confidence →
                updateBestFrame prior current bf = bf))))
    ∧ bf.confidence ≤ (updateBestFrame prior current bf).confidence := by
  have hub : updateBestFrame prior current bf
      = (if isStableTick prior current then
          (if bf.label = some current.label then
            (if bf.confidence < current.confidence then
              mkBestFrame current (pushRecent prior current) else bf)
           else
            (if bf.confidence < current.confidence then
              mkBestFrame current (pushRecent prior current) else bf))
         else bf) := rfl
  cases hst : isStableTick prior current with
  | false =>
    have hu : updateBestFrame prior current bf = bf := by
      rw [hub, hst]
      simp
    refine ⟨fun _ => hu, fun h2 => absurd h2 (by simp), ?_⟩
    rw [hu]
  | true =>
    have hu : updateBestFrame prior current bf
        = (if bf.confidence < current.confidence then
            mkBestFrame current (pushRecent prior current) else bf) := by
      rw [hub, hst]
      simp [ite_self]
    refine ⟨fun h1 => absurd h1 (by simp), fun _ => ⟨?_, ?_, ?_⟩, ?_⟩
    · intro hemp
      rw [hu, if_pos (by rw [hemp]; exact hconf)]
    · intro _
      constructor
      · intro hlt
        rw [hu, if_pos hlt]
      · intro hle
        rw [hu, if_neg (not_lt.mpr hle)]
    · intro _
      constructor
      · intro hlt
        rw [hu, if_pos hlt]
      · intro hle
        rw [hu, if_neg (not_lt.mpr hle)]
    · rw [hu]
      split_ifs with hlt
      · exact le_of_lt hlt
      · exact le_refl _

/-- Witness for C6: a stable tick on "Patola Female" with confidence 84
replaces the empty best frame. -/
theorem C6_bestframe_invariant_witness :
    updateBestFrame
      [⟨"Patola Female", 80, "a", 0, 0⟩, ⟨"Patola Female", 81, "b", 0, 0⟩,
       ⟨"Patola Female", 82, "c", 0, 0⟩, ⟨"Patola Female", 83, "d", 0, 0⟩]
      ⟨"Patola Female", 84, "e", 0, 0⟩ BestFrameState.empty
      = mkBestFrame ⟨"Patola Female", 84, "e", 0, 0⟩
          (pushRecent
            [⟨"Patola Female", 80, "a", 0, 0⟩, ⟨"Patola Female", 81, "b", 0, 0⟩,
             ⟨"Patola Female", 82, "c", 0, 0⟩, ⟨"Patola Female", 83, "d", 0, 0⟩]
            ⟨"Patola Female", 84, "e", 0, 0⟩) := by
  have h := C6_bestframe_invariant
    [⟨"Patola Female", 80, "a", 0, 0⟩, ⟨"Patola Female", 81, "b", 0, 0⟩,
     ⟨"Patola Female", 82, "c", 0, 0⟩, ⟨"Patola Female", 83, "d", 0, 0⟩]
    ⟨"Patola Female", 84, "e", 0, 0⟩ BestFrameState.empty (by norm_num)
  exact (h.2.1 (by decide)).1 rfl

/-- Claim C4: the capture-time frame selection follows the fixed priority
order - the best stable frame when present with confidence above 50; else
a highest-confidence non-reject history entry when its confidence is above
60; else the most recent frame when present; else the fresh-capture
signal. -/
theorem C4_frame_selection (bf : BestFrameState) (recent : List ScanEntry)
    (last : LastFrameState) :
    ((bf.uri.isSome ∧ 50 < bf.confidence) →
        handleCaptureSelect bf recent last
          = .bestStable (bf.uri.getD "") bf.width bf.height)
    ∧ (¬(bf.uri.isSome ∧ 50 < bf.confidence) →
        ((∃ e, e ∈ recentFiltered recent
            ∧ (∀ f ∈ recentFiltered recent, f.confidence ≤ e.confidence)
            ∧ 60 < e.confidence
            ∧ handleCaptureSelect bf recent last
                = .bestRecent e.uri e.width e.height)
         ∨ ((∀ e ∈ recentFiltered recent, e.confidence ≤ 60)
            ∧ (∀ u, last.uri = some u →
                handleCaptureSelect bf recent last
                  = .lastFrame u last.width last.height)
            ∧ (last.uri = none →
                handleCaptureSelect bf recent last = .fresh)))) := by
  constructor
  · intro h
    rw [handleCaptureSelect, if_pos h]
  · intro h
    rw [handleCaptureSelect, if_neg h]
    cases hhead : (jsSortDesc ScanEntry.confidence (recentFiltered recent)).head? with
    | none =>
      have hfe : recentFiltered recent = [] := by
        by_contra hne
        have hsne := jsSortDesc_ne_nil ScanEntry.confidence hne
        rw [List.head?_eq_none_iff] at hhead
        exact hsne hhead
      right
      refine ⟨(by rw [hfe]; intro e he; exact absurd he (by simp)), ?_, ?_⟩
      · intro u hu
        dsimp only
        rw [hu]
      · intro hu
        dsimp only
        rw [hu]
    | some b =>
      have hsne : jsSortDesc ScanEntry.confidence (recentFiltered recent) ≠ [] := by
        intro h0
        rw [h0] at hhead
        simp at hhead
      have hfne : recentFiltered recent ≠ [] := by
        intro h0
        apply hsne
        rw [h0]
        rfl
      have hmax := jsSortDesc_headD_max ScanEntry.confidence (recentFiltered recent) b hfne
      have hbd : (jsSortDesc ScanEntry.confidence (recentFiltered recent)).headD b = b := by
        obtain ⟨c, t, hct⟩ := List.exists_cons_of_ne_nil hsne
        rw [hct] at hhead
        simp only [List.head?_cons, Option.some.injEq] at hhead
        rw [hct, List.headD_cons, hhead]
      rw [hbd] at hmax
      by_cases hb : 60 < b.confidence
      · left
        refine ⟨b, hmax.1, hmax.2, hb, ?_⟩
        dsimp only
        rw [if_pos hb]
      · right
        refine ⟨fun e he => le_trans (hmax.2 e he) (not_lt.mp hb), ?_, ?_⟩
        · intro u hu
          dsimp only
          rw [if_neg hb, hu]
        · intro hu
          dsimp only
          rw [if_neg hb, hu]

/-- Witness for C4: a populated best frame with confidence 80 is selected
by the first rule. -/
theorem C4_frame_selection_witness :
    handleCaptureSelect ⟨some ("u0"), 10, 20, some ("Patola Female"), 80, 5⟩
      [] ⟨none, 0, 0⟩ = .bestStable "u0" 10 20 := by
  have h := C4_frame_selection ⟨some ("u0"), 10, 20, some ("Patola Female"), 80, 5⟩
    [] ⟨none, 0, 0⟩
  exact h.1 ⟨by decide, by norm_num⟩

/-- A successful scan comes from a successful attempt at some position. -/
theorem scanList_some {α : Type} (f : List Char → Option α) :
    ∀ (l : List Char) (v : α), scanList f l = some v → ∃ t, f t = some v := by
  intro l
  induction l with
  | nil =>
    intro v h
    exact ⟨[], h⟩
  | cons c rest ih =>
    intro v h
    simp only [scanList] at h
    cases hf : f (c :: rest) with
    | some w =>
      simp only [hf] at h
      exact ⟨c :: rest, hf.trans (by rw [h])⟩
    | none =>
      simp only [hf] at h
      exact ih v h

/-- A string built from a non-empty character list is non-empty. -/
theorem mk_ne_empty {l : List Char} (h : l ≠ []) : String.mk l ≠ "" := by
  intro h0
  apply h
  have h1 := congrArg String.data h0
  simpa using h1

/-- A capture returned by the quoted-field pattern is non-empty. -/
theorem tryStringField_ne_empty (key : String) (t : List Char) (v : String)
    (h : tryStringField key t = some v) : v ≠ "" := by
  simp only [tryStringField] at h
  cases h1 : matchLit (fieldKeyChars key) t with
  | none => simp [h1] at h
  | some s1 =>
    simp only [h1] at h
    cases h2 : matchLit [':'] (skipWs s1) with
    | none => simp [h2] at h
    | some s2 =>
      simp only [h2] at h
      cases h3 : matchLit [dquote] (skipWs s2) with
      | none => simp [h3] at h
      | some s3 =>
        simp only [h3] at h
        cases h4 : s3.dropWhile notQuoteB with
        | nil => simp [h4] at h
        | cons d ds =>
          simp only [h4] at h
          by_cases h5 : s3.takeWhile notQuoteB = []
          · simp [h5] at h
          · rw [if_neg h5] at h
            have hv := Option.some.inj h
            rw [← hv]
            exact mk_ne_empty h5

/-- Claim C9: when strict JSON parsing fails - no JSON object found, or
`JSON.parse` throws - but targeted pattern extraction finds all three of
the variety, gender and confidence fields, the call still returns a
formatted prediction built from those extracted fields; an analysis-failed
error for a parse problem is raised only when the extraction fails too. -/
theorem C9_parse_fallback (jsonParse : String → Option GeminiRaw) (text : String)
    (hstrict : jsBraceMatch text = none
      ∨ ∃ s, jsBraceMatch text = some s ∧ jsonParse s = none) :
    (∀ v g c,
        jsMatchStringField ("variety") text = some v →
        jsMatchStringField ("gender") text = some g →
        jsMatchNumField ("confidence") text = some c →
        ∃ r, analyzeFlowerParse jsonParse text
          = Except.ok (formatPrediction v g (jsParseFloat c) (some r) []))
    ∧ ((jsMatchStringField ("variety") text = none
        ∨ jsMatchStringField ("gender") text = none
        ∨ jsMatchNumField ("confidence") text = none) →
        analyzeFlowerParse jsonParse text
          = Except.error ("Gemini analysis failed: Invalid response format from Gemini")) := by
  constructor
  · intro v g c hv hg hc
    have hvne : v ≠ "" := by
      obtain ⟨t, ht⟩ := scanList_some (tryStringField ("variety")) text.data v
        (by simpa [jsMatchStringField] using hv)
      exact tryStringField_ne_empty _ t v ht
    have hgne : g ≠ "" := by
      obtain ⟨t, ht⟩ := scanList_some (tryStringField ("gender")) text.data g
        (by simpa [jsMatchStringField] using hg)
      exact tryStringField_ne_empty _ t g ht
    have hcond : (truthyOpt (some v) && truthyOpt (some g)
        && (some (jsParseFloat c)).isSome) = true := by
      simp [truthyOpt, hvne, hgne]
    rcases hstrict with hb | ⟨s, hbs, hjp⟩
    · refine ⟨(jsMatchReasoning text).getD ("Analysis completed"), ?_⟩
      have hparse : parseGeminiText jsonParse text = Except.ok
          { variety := some v
            gender := some g
            confidence := some (jsParseFloat c)
            reasoning := some ((jsMatchReasoning text).getD ("Analysis completed"))
            keyFeatures := [] } := by
        simp only [parseGeminiText, hb, hv, hg, hc]
      simp only [analyzeFlowerParse, hparse]
      rw [if_pos hcond]
      rfl
    · refine ⟨"Analysis completed (partial response)", ?_⟩
      have hparse : parseGeminiText jsonParse text = Except.ok
          { variety := some v
            gender := some g
            confidence := some (jsParseFloat c)
            reasoning := some ("Analysis completed (partial response)")
            keyFeatures := [] } := by
        simp only [parseGeminiText, hbs, hjp, hv, hg, hc]
      simp only [analyzeFlowerParse, hparse]
      rw [if_pos hcond]
      rfl
  · intro hnone
    have herr : parseGeminiText jsonParse text
        = Except.error ("Invalid response format from Gemini") := by
      rcases hnone with hv | hg | hc
      · rcases hstrict with hb | ⟨s, hbs, hjp⟩
        · simp only [parseGeminiText, hb, hv]
        · simp only [parseGeminiText, hbs, hjp, hv]
      · cases hv2 : jsMatchStringField ("variety") text with
        | none =>
          rcases hstrict with hb | ⟨s, hbs, hjp⟩
          · simp only [parseGeminiText, hb, hv2]
          · simp only [parseGeminiText, hbs, hjp, hv2]
        | some v =>
          rcases hstrict with hb | ⟨s, hbs, hjp⟩
          · simp only [parseGeminiText, hb, hv2, hg]
          · simp only [parseGeminiText, hbs, hjp, hv2, hg]
      · cases hv2 : jsMatchStringField ("variety") text with
        | none =>
          rcases hstrict with hb | ⟨s, hbs, hjp⟩
          · simp only [parseGeminiText, hb, hv2]
          · simp only [parseGeminiText, hbs, hjp, hv2]
        | some v =>
          cases hg2 : jsMatchStringField ("gender") text with
          | none =>
            rcases hstrict with hb | ⟨s, hbs, hjp⟩
            · simp only [parseGeminiText, hb, hv2, hg2]
            · simp only [parseGeminiText, hbs, hjp, hv2, hg2]
          | some g =>
            rcases hstrict with hb | ⟨s, hbs, hjp⟩
            · simp only [parseGeminiText, hb, hv2, hg2, hc]
            · simp only [parseGeminiText, hbs, hjp, hv2, hg2, hc]
    simp only [analyzeFlowerParse, herr]
    rfl

/-- Witness for C9: a brace-free response text from which the three fields
are extracted still yields a formatted prediction. -/
theorem C9_parse_fallback_witness :
    ∃ r, analyzeFlowerParse (fun _ => none)
        ("\"variety\": \"patola\", \"gender\": \"male\", \"confidence\": 0.9")
      = Except.ok (formatPrediction ("patola") ("male")
          (jsParseFloat ("0.9")) (some r) []) := by
  have h := C9_parse_fallback (fun _ => none)
    ("\"variety\": \"patola\", \"gender\": \"male\", \"confidence\": 0.9")
    (Or.inl (by decide))
  exact h.1 "patola" "male" "0.9" (by decide) (by decide) (by decide)

end EGourd
